import Mathlib

/-!
Formal model of `src/script.js`, an interactive touch-driven bubble/ripple
canvas toy.  The event system and the per-frame tick are modelled exactly
over the rationals (every numeric constant in the script is a finite
decimal, so ℚ arithmetic coincides with exact real arithmetic on all the
values the script manipulates).  The pairwise collision resolver
(`handleBubbleCollisions`, lines 137-182) divides by `Math.hypot`, a square
root, so it is modelled over ℝ.

Rendering calls (`draw`, gradients, shadows) have no effect on simulation
state and are not modelled, except for the one observable fact the claims
need: `Ripple.draw` (line 44) is a no-op while `delay > 0`, captured below
as `Ripple.visible`.  The per-instance glimmer offsets (lines 66-67) feed
only the gradient and are omitted.
-/

/-! ## Physics constants (script.js lines 12-15) -/

def BUBBLE_BUOYANCY : ℚ := 0

def BUBBLE_DRAG : ℚ := 1

def BUBBLE_RESTITUTION : ℚ := 99 / 100

/-! ## Ripple (script.js lines 17-54)

The constructor stores a `maxRadius` field (always passed `Infinity` at the
two call sites) that no method ever reads; it is omitted.  `delay` is only
ever a non-negative integer frame count, modelled as ℕ. -/

structure Ripple where
  x : ℚ
  y : ℚ
  radius : ℚ
  expandSpeed : ℚ
  fadeSpeed : ℚ
  hue : ℚ
  delay : ℕ
  alpha : ℚ
  done : Bool

/-- `new Ripple(x, y, Infinity, expandSpeed, fadeSpeed, hue, delay)`
(constructor, lines 18-29): radius starts at 0, alpha at 1, not done. -/
def mkRipple (x y expandSpeed fadeSpeed hue : ℚ) (delay : ℕ) : Ripple :=
  { x := x, y := y, radius := 0, expandSpeed := expandSpeed,
    fadeSpeed := fadeSpeed, hue := hue, delay := delay, alpha := 1,
    done := false }

/-- `Ripple.update` (lines 31-41): while the delay runs, just decrement it;
otherwise grow the radius, fade the alpha, and mark done once alpha ≤ 0. -/
def Ripple.update (r : Ripple) : Ripple :=
  if 0 < r.delay then { r with delay := r.delay - 1 }
  else
    let alpha1 := r.alpha - r.fadeSpeed
    { r with radius := r.radius + r.expandSpeed, alpha := alpha1,
             done := if alpha1 ≤ 0 then true else r.done }

/-- `Ripple.draw` (line 44) returns without drawing while `delay > 0`:
a ripple is actually rendered on a frame exactly when this is `true`. -/
def Ripple.visible (r : Ripple) : Bool := r.delay == 0

/-! ## Bubble (script.js lines 56-130) -/

structure Bubble where
  x : ℚ
  y : ℚ
  radius : ℚ
  vx : ℚ
  vy : ℚ
  growing : Bool
  maxRadius : ℚ
  popped : Bool
  hue : ℚ

/-- `new Bubble(x, y)` (constructor, lines 57-71): radius 5, velocity
(0, -2), growing, max radius 150, not popped, hue `Math.random() * 360`
(the random draw in [0,1) is passed in as `rand`). -/
def mkBubble (x y rand : ℚ) : Bubble :=
  { x := x, y := y, radius := 5, vx := 0, vy := -2, growing := true,
    maxRadius := 150, popped := false, hue := rand * 360 }

/-- `Bubble.update` (lines 97-129), with the canvas dimensions `w × h` as
parameters.  Growing: radius grows by 0.5 and the bubble pops at
`maxRadius`.  Free: buoyancy and drag are applied to the velocity, the
position is integrated, the hue advances by 0.1 wrapping at 360, and each
screen edge clamps the position into range and reflects the velocity
scaled by the restitution factor. -/
def Bubble.update (w h : ℚ) (b : Bubble) : Bubble :=
  if b.growing then
    let radius1 := b.radius + 1 / 2
    { b with radius := radius1,
             popped := if b.maxRadius ≤ radius1 then true else b.popped }
  else
    let vx1 := b.vx * BUBBLE_DRAG
    let vy1 := (b.vy + BUBBLE_BUOYANCY) * BUBBLE_DRAG
    let x1 := b.x + vx1
    let y1 := b.y + vy1
    let hue1 := b.hue + 1 / 10
    let hue2 := if 360 ≤ hue1 then hue1 - 360 else hue1
    let xv := if x1 - b.radius ≤ 0 ∨ w ≤ x1 + b.radius
      then (max b.radius (min (w - b.radius) x1), -vx1 * BUBBLE_RESTITUTION)
      else (x1, vx1)
    let yv := if y1 - b.radius ≤ 0 ∨ h ≤ y1 + b.radius
      then (max b.radius (min (h - b.radius) y1), -vy1 * BUBBLE_RESTITUTION)
      else (y1, vy1)
    { b with x := xv.1, vx := xv.2, y := yv.1, vy := yv.2, hue := hue2 }

/-! ## Single-bubble event steps

The three operations the program ever applies to one bubble object:
an `animate` tick (`Bubble.update`), a `touchmove` growth step
(line 214: `growingBubble.radius += 0.5`), and the `touchend` release
(lines 220-222: `growing = false; vx = (Math.random() - 0.5) * 2`). -/

inductive BubbleOp where
  | tick (w h : ℚ)
  | move
  | release (rand : ℚ)

def BubbleOp.apply (b : Bubble) : BubbleOp → Bubble
  | .tick w h => Bubble.update w h b
  | .move => { b with radius := b.radius + 1 / 2 }
  | .release rand => { b with growing := false, vx := (rand - 1 / 2) * 2 }

def BubbleOp.isTick : BubbleOp → Bool
  | .tick _ _ => true
  | _ => false

def BubbleOp.isRelease : BubbleOp → Bool
  | .release _ => true
  | _ => false

def runOps (b : Bubble) (ops : List BubbleOp) : Bubble :=
  ops.foldl BubbleOp.apply b

/-! ## The animate tick (script.js lines 227-271)

Both removal loops iterate indices downward and `splice` in place; since
each entity's update is independent of the others, a downward
splice-as-you-go loop computes exactly map-then-filter, with pop ripples
appended in reverse bubble order (the highest index is processed first).
`handleBubbleCollisions` (called at line 263) reads and writes only free
bubbles' positions and velocities and never touches the ripple list; it is
modelled separately over ℝ (`resolvePair` below). -/

/-- The three pop ripples (identical at lines 195-199 and 253-257):
expand speed 3, fade speed 0.01, the bubble's hue, delays 0, 15, 30,
at the bubble's current position. -/
def popRipples (b : Bubble) : List Ripple :=
  [mkRipple b.x b.y 3 (1 / 100) b.hue 0,
   mkRipple b.x b.y 3 (1 / 100) b.hue 15,
   mkRipple b.x b.y 3 (1 / 100) b.hue 30]

/-- Ripple phase of a frame (lines 238-246): update every ripple, drop the
done ones, draw the rest (draw is a no-op while `delay > 0`).  Returns
(remaining ripples, ripples actually drawn this frame). -/
def rippleTick (rs : List Ripple) : List Ripple × List Ripple :=
  let updated := rs.map Ripple.update
  let kept := updated.filter (fun r => !r.done)
  (kept, kept.filter Ripple.visible)

/-- Bubble phase of a frame (lines 249-260): update every bubble; each
now-popped bubble appends its three pop ripples and is removed.  Returns
(remaining bubbles, ripples spawned this frame, in append order). -/
def bubbleTick (w h : ℚ) (bs : List Bubble) : List Bubble × List Ripple :=
  let updated := bs.map (Bubble.update w h)
  (updated.filter (fun b => !b.popped),
   (updated.reverse.filter (fun b => b.popped)).flatMap popRipples)

structure SimState where
  ripples : List Ripple
  bubbles : List Bubble

/-- One `animate` frame (lines 227-271) on the two entity lists: the
ripple phase runs first (update, prune, draw), then the bubble phase
(update, spawn pop ripples, prune).  Returns the next state and the list
of ripples drawn during this frame. -/
def animateTick (w h : ℚ) (s : SimState) : SimState × List Ripple :=
  let rt := rippleTick s.ripples
  let bt := bubbleTick w h s.bubbles
  (⟨rt.1 ++ bt.2, bt.1⟩, rt.2)

/-! ## Touch handlers and the growing-bubble reference (lines 132-225)

`growingBubble` is a JavaScript object reference that can outlive the
bubble's membership in the `bubbles` array (nothing clears it when the
hit-test pops the growing bubble).  To model that aliasing, bubble objects
live in an append-only `heap`; the `bubbles` array is a list of heap
indices and `growingBubble` an optional heap index.  A dangling reference
is then simply an index no longer present in `bubbleIds`. -/

structure World where
  heap : List Bubble
  bubbleIds : List ℕ
  growing : Option ℕ
  ripples : List Ripple

def defaultBubble : Bubble := mkBubble 0 0 0

/-- Dereference a heap index (total, for convenience; every index the
handlers ever store is in range). -/
def heapGet (w : World) (i : ℕ) : Bubble := w.heap.getD i defaultBubble

/-- The bubble object at position `idx` of the `bubbles` array. -/
def bubbleAt (w : World) (idx : ℕ) : Bubble := heapGet w (w.bubbleIds.getD idx 0)

/-- `Math.hypot(x - b.x, y - b.y) <= b.radius` (lines 193-194): the touch
point lies inside (or on) the bubble. -/
def hits (x y : ℚ) (b : Bubble) : Prop :=
  Real.sqrt (((x : ℝ) - (b.x : ℝ)) ^ 2 + ((y : ℝ) - (b.y : ℝ)) ^ 2) ≤ (b.radius : ℝ)

instance hitsDecidable (x y : ℚ) (b : Bubble) : Decidable (hits x y b) :=
  decidable_of_iff (0 ≤ b.radius ∧ (x - b.x) ^ 2 + (y - b.y) ^ 2 ≤ b.radius ^ 2)
    (by
      rw [hits, Real.sqrt_le_iff]
      constructor
      · rintro ⟨h1, h2⟩
        exact ⟨by exact_mod_cast h1, by exact_mod_cast h2⟩
      · rintro ⟨h1, h2⟩
        exact ⟨by exact_mod_cast h1, by exact_mod_cast h2⟩)

/-- The `touchstart` hit-test loop (lines 191-204): scan indices of the
`bubbles` array downward from `n - 1`, stopping at the first bubble the
touch point hits.  `scanPop w x y n` scans positions `n-1, n-2, …, 0`. -/
def scanPop (w : World) (x y : ℚ) : ℕ → Option ℕ
  | 0 => none
  | i + 1 => if hits x y (bubbleAt w i) then some i else scanPop w x y i

def hitIndex? (w : World) (x y : ℚ) : Option ℕ :=
  scanPop w x y w.bubbleIds.length

/-- `touchstart` handler (lines 184-209).  If the scan finds a hit, spawn
the three pop ripples and splice that bubble out of the array (the
`growingBubble` reference is NOT touched); a hit also suppresses bubble
creation (`popped = true`).  Otherwise, if no bubble is currently growing,
create a new growing bubble at the touch point and remember it. -/
def touchstart (x y rand : ℚ) (w : World) : World :=
  match hitIndex? w x y with
  | some idx =>
      { w with ripples := w.ripples ++ popRipples (bubbleAt w idx),
               bubbleIds := w.bubbleIds.eraseIdx idx }
  | none =>
      match w.growing with
      | some _ => w
      | none =>
          { w with heap := w.heap ++ [mkBubble x y rand],
                   bubbleIds := w.bubbleIds ++ [w.heap.length],
                   growing := some w.heap.length }

/-- `touchmove` handler (lines 211-216): if a growing bubble is referenced,
grow its radius by 0.5 — through the reference, whether or not the object
is still in the `bubbles` array. -/
def touchmove (w : World) : World :=
  match w.growing with
  | some g =>
      let b := heapGet w g
      { w with heap := w.heap.set g { b with radius := b.radius + 1 / 2 } }
  | none => w

/-- `touchend` handler (lines 218-225): release the growing bubble (phase
flag off, small random horizontal drift `(rand - 0.5) * 2`) and clear the
reference. -/
def touchend (rand : ℚ) (w : World) : World :=
  match w.growing with
  | some g =>
      let b := heapGet w g
      { w with heap := w.heap.set g { b with growing := false, vx := (rand - 1 / 2) * 2 },
               growing := none }
  | none => w

/-! ## Pairwise collision resolution (script.js lines 137-182)

`handleBubbleCollisions` divides by `Math.hypot(dx, dy)`, so this part is
modelled over ℝ.  `BubbleC` carries exactly the fields the resolver reads
and writes, plus the two phase flags its guards test.  `resolvePair` is
one body of the inner loop for one pair `(a, b)`. -/

structure BubbleC where
  x : ℝ
  y : ℝ
  radius : ℝ
  vx : ℝ
  vy : ℝ
  growing : Bool
  popped : Bool

noncomputable def hypot (x y : ℝ) : ℝ := Real.sqrt (x ^ 2 + y ^ 2)

/-- One pair resolution (lines 139-179): skip growing or popped bubbles;
skip coincident or non-overlapping pairs; separate the pair symmetrically
along the normal so they just touch; then, unless they are already
separating, apply the equal-mass impulse `-(1 + restitution) · relVel / 2`
to both velocities along the normal in opposite directions. -/
noncomputable def resolvePair (a b : BubbleC) : BubbleC × BubbleC :=
  if a.growing || a.popped || b.growing || b.popped then (a, b)
  else
    let dx := b.x - a.x
    let dy := b.y - a.y
    let dist := hypot dx dy
    let minDist := a.radius + b.radius
    if dist = 0 ∨ minDist ≤ dist then (a, b)
    else
      let nx := dx / dist
      let ny := dy / dist
      let separation := (minDist - dist) / 2
      let a2 := { a with x := a.x - nx * separation, y := a.y - ny * separation }
      let b2 := { b with x := b.x + nx * separation, y := b.y + ny * separation }
      let relVel := (b2.vx - a2.vx) * nx + (b2.vy - a2.vy) * ny
      if 0 < relVel then (a2, b2)
      else
        let impulse := -(1 + (BUBBLE_RESTITUTION : ℝ)) * relVel / 2
        ({ a2 with vx := a2.vx - impulse * nx, vy := a2.vy - impulse * ny },
         { b2 with vx := b2.vx + impulse * nx, vy := b2.vy + impulse * ny })

/-- The relative velocity of the pair along the collision normal,
`(dv · d) / |d|` — what lines 165-168 compute as `relVel`. -/
noncomputable def normalRelVel (a b : BubbleC) : ℝ :=
  ((b.vx - a.vx) * (b.x - a.x) + (b.vy - a.vy) * (b.y - a.y)) /
    hypot (b.x - a.x) (b.y - a.y)

/-- A free bubble used as a concrete input by several witnesses. -/
def freeB : Bubble := { mkBubble 0 0 0 with growing := false }

/-- A world holding one free bubble at the origin. -/
def wFree : World := ⟨[freeB], [0], none, []⟩

/-- A world holding one still-growing bubble at the origin, referenced by
`growingBubble`. -/
def wGrow : World := ⟨[mkBubble 0 0 0], [0], some 0, []⟩

/-- A growing bubble half a step from the maximum radius: the next tick
pops it. -/
def bigBubble : Bubble := { mkBubble 0 0 0 with radius := 299 / 2 }

/-- A state with no ripples and one bubble about to auto-pop. -/
def sCex : SimState := ⟨[], [bigBubble]⟩

/-- Concrete overlapping free pair used by the collision witness:
centres 5 apart (a 3-4-5 triangle), radii summing to 6, velocities
head-on. -/
def aC : BubbleC := ⟨0, 0, 3, 1, 1, false, false⟩

def bC : BubbleC := ⟨3, 4, 3, -1, -1, false, false⟩

/-! ## General lemmas about the model -/

lemma update_growing (w h : ℚ) (b : Bubble) :
    (Bubble.update w h b).growing = b.growing := by
  unfold Bubble.update; split <;> rfl

lemma update_maxRadius (w h : ℚ) (b : Bubble) :
    (Bubble.update w h b).maxRadius = b.maxRadius := by
  unfold Bubble.update; split <;> rfl

lemma update_radius_free (w h : ℚ) (b : Bubble) (hg : b.growing = false) :
    (Bubble.update w h b).radius = b.radius := by
  simp [Bubble.update, hg]

lemma update_radius_le (w h : ℚ) (b : Bubble) :
    b.radius ≤ (Bubble.update w h b).radius := by
  cases hgb : b.growing with
  | true => simp [Bubble.update, hgb]
  | false => simp [Bubble.update, hgb]

lemma apply_maxRadius (b : Bubble) (op : BubbleOp) :
    (BubbleOp.apply b op).maxRadius = b.maxRadius := by
  cases op with
  | tick w h => exact update_maxRadius w h b
  | move => rfl
  | release r => rfl

lemma apply_radius_le (b : Bubble) (op : BubbleOp) :
    b.radius ≤ (BubbleOp.apply b op).radius := by
  cases op with
  | tick w h => exact update_radius_le w h b
  | move => show b.radius ≤ b.radius + 1 / 2; linarith
  | release r => exact le_refl _

lemma resolvePair_radius (a b : BubbleC) :
    (resolvePair a b).1.radius = a.radius ∧ (resolvePair a b).2.radius = b.radius := by
  unfold resolvePair
  dsimp only
  split
  · exact ⟨rfl, rfl⟩
  · split
    · exact ⟨rfl, rfl⟩
    · split
      · exact ⟨rfl, rfl⟩
      · exact ⟨rfl, rfl⟩

lemma resolvePair_growing (a b : BubbleC) :
    (resolvePair a b).1.growing = a.growing ∧ (resolvePair a b).2.growing = b.growing := by
  unfold resolvePair
  dsimp only
  split
  · exact ⟨rfl, rfl⟩
  · split
    · exact ⟨rfl, rfl⟩
    · split
      · exact ⟨rfl, rfl⟩
      · exact ⟨rfl, rfl⟩

lemma runOps_growing_false (ops : List BubbleOp) (b : Bubble) (h : b.growing = false) :
    (runOps b ops).growing = false := by
  induction ops generalizing b with
  | nil => exact h
  | cons op tl ih =>
      refine ih _ ?_
      cases op with
      | tick w hh => rw [show BubbleOp.apply b (.tick w hh) = Bubble.update w hh b from rfl,
          update_growing]; exact h
      | move => exact h
      | release r => rfl

lemma runOps_vel_invariant (ops : List BubbleOp) (b : Bubble)
    (h : b.growing = true → b.vx = 0 ∧ b.vy = -2) :
    (runOps b ops).growing = true → (runOps b ops).vx = 0 ∧ (runOps b ops).vy = -2 := by
  induction ops generalizing b with
  | nil => exact h
  | cons op tl ih =>
      refine ih (BubbleOp.apply b op) ?_
      cases op with
      | tick w hh =>
          intro hg
          have hbg : b.growing = true := by
            rw [← update_growing w hh b]; exact hg
          obtain ⟨h1, h2⟩ := h hbg
          constructor
          · show (Bubble.update w hh b).vx = 0
            simp [Bubble.update, hbg, h1]
          · show (Bubble.update w hh b).vy = -2
            simp [Bubble.update, hbg, h2]
      | move => exact h
      | release r => intro hg; exact absurd hg (by simp [BubbleOp.apply])

lemma apply_hue_mem (b : Bubble) (op : BubbleOp) (h0 : 0 ≤ b.hue) (h1 : b.hue < 360) :
    0 ≤ (BubbleOp.apply b op).hue ∧ (BubbleOp.apply b op).hue < 360 := by
  cases op with
  | tick w hh =>
      show 0 ≤ (Bubble.update w hh b).hue ∧ (Bubble.update w hh b).hue < 360
      cases hgb : b.growing with
      | true => simp [Bubble.update, hgb]; exact ⟨h0, h1⟩
      | false =>
          simp only [Bubble.update, hgb, Bool.false_eq_true, if_false]
          split_ifs with hw
          · constructor <;> simp <;> linarith
          · constructor <;> simp <;> linarith
  | move => exact ⟨h0, h1⟩
  | release r => exact ⟨h0, h1⟩

lemma runOps_hue_mem (ops : List BubbleOp) (b : Bubble) (h0 : 0 ≤ b.hue) (h1 : b.hue < 360) :
    0 ≤ (runOps b ops).hue ∧ (runOps b ops).hue < 360 := by
  induction ops generalizing b with
  | nil => exact ⟨h0, h1⟩
  | cons op tl ih =>
      obtain ⟨g0, g1⟩ := apply_hue_mem b op h0 h1
      exact ih _ g0 g1

lemma update_free_box_x (w h : ℚ) (b : Bubble) (hg : b.growing = false)
    (hw : 2 * b.radius ≤ w) :
    b.radius ≤ (Bubble.update w h b).x ∧ (Bubble.update w h b).x ≤ w - b.radius := by
  have hrw : b.radius ≤ w - b.radius := by linarith
  simp only [Bubble.update, hg, Bool.false_eq_true, if_false]
  split_ifs with hbx
  · exact ⟨le_max_left _ _, max_le hrw (min_le_left _ _)⟩
  · push_neg at hbx
    obtain ⟨h1, h2⟩ := hbx
    constructor
    · show b.radius ≤ b.x + b.vx * BUBBLE_DRAG
      linarith
    · show b.x + b.vx * BUBBLE_DRAG ≤ w - b.radius
      linarith

lemma update_free_box_y (w h : ℚ) (b : Bubble) (hg : b.growing = false)
    (hh : 2 * b.radius ≤ h) :
    b.radius ≤ (Bubble.update w h b).y ∧ (Bubble.update w h b).y ≤ h - b.radius := by
  have hrh : b.radius ≤ h - b.radius := by linarith
  simp only [Bubble.update, hg, Bool.false_eq_true, if_false]
  split_ifs with hby
  · exact ⟨le_max_left _ _, max_le hrh (min_le_left _ _)⟩
  · push_neg at hby
    obtain ⟨h1, h2⟩ := hby
    constructor
    · show b.radius ≤ b.y + (b.vy + BUBBLE_BUOYANCY) * BUBBLE_DRAG
      linarith
    · show b.y + (b.vy + BUBBLE_BUOYANCY) * BUBBLE_DRAG ≤ h - b.radius
      linarith

lemma iterate_update_free (w h : ℚ) (b : Bubble) (hg : b.growing = false) (n : ℕ) :
    ((Bubble.update w h)^[n] b).growing = false ∧
    ((Bubble.update w h)^[n] b).radius = b.radius := by
  induction n with
  | zero => exact ⟨hg, rfl⟩
  | succ k ih =>
      rw [Function.iterate_succ_apply']
      refine ⟨?_, ?_⟩
      · rw [update_growing]; exact ih.1
      · rw [update_radius_free _ _ _ ih.1]; exact ih.2

/-! ## Claim C4 -/

/-- C4: in the clamped boundary variant (the code's only variant,
lines 119-127), a free bubble whose diameter fits the canvas lies in
`[radius, w - radius] × [radius, h - radius]` after every tick — in
particular after any tick in which a bounce occurs, and for every
subsequent tick — and whenever a boundary test fires, the corresponding
velocity component is negated and scaled by the restitution factor
0.99. -/
theorem clamped_bounce_stays_in_box (w h : ℚ) (b : Bubble) (hg : b.growing = false)
    (hw : 2 * b.radius ≤ w) (hh : 2 * b.radius ≤ h) :
    (∀ n : ℕ, 1 ≤ n →
      b.radius ≤ ((Bubble.update w h)^[n] b).x ∧
      ((Bubble.update w h)^[n] b).x ≤ w - b.radius ∧
      b.radius ≤ ((Bubble.update w h)^[n] b).y ∧
      ((Bubble.update w h)^[n] b).y ≤ h - b.radius) ∧
    ((b.x + b.vx * BUBBLE_DRAG) - b.radius ≤ 0 ∨ w ≤ (b.x + b.vx * BUBBLE_DRAG) + b.radius →
      (Bubble.update w h b).vx = -(b.vx * BUBBLE_DRAG) * BUBBLE_RESTITUTION) ∧
    ((b.y + (b.vy + BUBBLE_BUOYANCY) * BUBBLE_DRAG) - b.radius ≤ 0 ∨
        h ≤ (b.y + (b.vy + BUBBLE_BUOYANCY) * BUBBLE_DRAG) + b.radius →
      (Bubble.update w h b).vy = -((b.vy + BUBBLE_BUOYANCY) * BUBBLE_DRAG) * BUBBLE_RESTITUTION) := by
  refine ⟨?_, ?_, ?_⟩
  · intro n hn
    obtain ⟨k, rfl⟩ : ∃ k, n = k + 1 := ⟨n - 1, by omega⟩
    rw [Function.iterate_succ_apply']
    obtain ⟨hcg, hcr⟩ := iterate_update_free w h b hg k
    set c := (Bubble.update w h)^[k] b with hc
    obtain ⟨hx1, hx2⟩ := update_free_box_x w h c hcg (by rw [hcr]; exact hw)
    obtain ⟨hy1, hy2⟩ := update_free_box_y w h c hcg (by rw [hcr]; exact hh)
    rw [hcr] at hx1 hx2 hy1 hy2
    exact ⟨hx1, hx2, hy1, hy2⟩
  · intro hcond
    simp only [Bubble.update, hg, Bool.false_eq_true, if_false]
    rw [if_pos hcond]
  · intro hcond
    simp only [Bubble.update, hg, Bool.false_eq_true, if_false]
    rw [if_pos hcond]

/-- C4 witness: the concrete free bubble `freeB` (radius 5, position
(0,0), velocity (0,-2)) on a 100×100 canvas satisfies every hypothesis,
its vertical boundary test fires on the first tick, and the theorem gives
the reflected, restitution-scaled vertical velocity. -/
theorem clamped_bounce_stays_in_box_witness :
    2 * freeB.radius ≤ (100 : ℚ) ∧
    (Bubble.update 100 100 freeB).vy =
      -((freeB.vy + BUBBLE_BUOYANCY) * BUBBLE_DRAG) * BUBBLE_RESTITUTION := by
  refine ⟨by norm_num [freeB, mkBubble], ?_⟩
  refine (clamped_bounce_stays_in_box 100 100 freeB rfl ?_ ?_).2.2 ?_
  · norm_num [freeB, mkBubble]
  · norm_num [freeB, mkBubble]
  · left
    norm_num [freeB, mkBubble, BUBBLE_DRAG, BUBBLE_BUOYANCY]

/-! ## Claim C5 -/

/-- C5 counterexample: the claim says a growing bubble has zero velocity
from creation, but the constructor (line 62) sets `vy = -2`: a freshly
created bubble is in the growing phase with non-zero vertical velocity. -/
theorem growing_zero_velocity_cex :
    (mkBubble 100 100 0).growing = true ∧ ¬ (mkBubble 100 100 0).vy = 0 := by
  constructor
  · rfl
  · show ¬ (-2 : ℚ) = 0
    norm_num

/-- C5 (amended): every bubble in the growing phase has `vx = 0` and
`vy = -2` (the constant set at creation; not zero) from creation until
release under any sequence of ticks and input events; and once the
`growing` flag is false it never becomes true again (collision resolution
included: it preserves the flag). -/
theorem growing_vx_zero_and_no_regrow (x y rand : ℚ) (ops : List BubbleOp) :
    ((runOps (mkBubble x y rand) ops).growing = true →
      (runOps (mkBubble x y rand) ops).vx = 0 ∧ (runOps (mkBubble x y rand) ops).vy = -2) ∧
    (∀ (b : Bubble) (ops2 : List BubbleOp), b.growing = false →
      (runOps b ops2).growing = false) ∧
    (∀ a b : BubbleC,
      (resolvePair a b).1.growing = a.growing ∧ (resolvePair a b).2.growing = b.growing) := by
  refine ⟨?_, fun b ops2 hb => runOps_growing_false ops2 b hb, resolvePair_growing⟩
  exact runOps_vel_invariant ops (mkBubble x y rand) (fun _ => ⟨rfl, rfl⟩)

/-- C5 amended-claim witness at a concrete input: a fresh bubble after one
tick and one move step is still growing and still has velocity (0, -2). -/
theorem growing_vx_zero_and_no_regrow_witness :
    (runOps (mkBubble 7 9 0) [BubbleOp.tick 800 600, BubbleOp.move]).vx = 0 ∧
    (runOps (mkBubble 7 9 0) [BubbleOp.tick 800 600, BubbleOp.move]).vy = -2 :=
  (growing_vx_zero_and_no_regrow 7 9 0 [BubbleOp.tick 800 600, BubbleOp.move]).1 rfl

/-! ## Claim C6 -/

/-- C6: the radius never decreases across any operation — animate tick,
touch-move growth step, release, or a collision-resolution pass — and a
free (non-growing) bubble's radius is exactly constant under a tick and
under collision resolution. -/
theorem radius_monotone_and_free_constant :
    (∀ (b : Bubble) (op : BubbleOp), b.radius ≤ (BubbleOp.apply b op).radius) ∧
    (∀ (w h : ℚ) (b : Bubble), b.growing = false →
      (Bubble.update w h b).radius = b.radius) ∧
    (∀ a b : BubbleC,
      (resolvePair a b).1.radius = a.radius ∧ (resolvePair a b).2.radius = b.radius) :=
  ⟨apply_radius_le, update_radius_free, resolvePair_radius⟩

/-- C6 witness: the free-phase hypothesis discharged at a concrete free
bubble — one tick leaves its radius unchanged. -/
theorem radius_monotone_and_free_constant_witness :
    (Bubble.update 800 600 freeB).radius = freeB.radius :=
  radius_monotone_and_free_constant.2.1 800 600 freeB rfl

/-! ## Claim C3 -/

lemma runOps_append (b : Bubble) (l1 l2 : List BubbleOp) :
    runOps b (l1 ++ l2) = runOps (runOps b l1) l2 :=
  List.foldl_append _ _ _ _

lemma runOps_radius_le (ops : List BubbleOp) (b : Bubble) :
    b.radius ≤ (runOps b ops).radius := by
  induction ops generalizing b with
  | nil => exact le_refl _
  | cons op tl ih => exact le_trans (apply_radius_le b op) (ih _)

lemma apply_growing_true (b : Bubble) (op : BubbleOp) (hg : b.growing = true)
    (hop : op.isRelease = false) : (BubbleOp.apply b op).growing = true := by
  cases op with
  | tick w hh =>
      rw [show BubbleOp.apply b (.tick w hh) = Bubble.update w hh b from rfl, update_growing]
      exact hg
  | move => exact hg
  | release r => exact absurd hop (by simp [BubbleOp.isRelease])

/-- On a growing bubble, one operation sets `popped` exactly when the
operation is a tick and the new radius has reached `maxRadius` (or the
flag was already set). -/
lemma apply_popped_iff (b : Bubble) (op : BubbleOp) (hg : b.growing = true)
    (hop : op.isRelease = false) :
    ((BubbleOp.apply b op).popped = true ↔
      b.popped = true ∨ (op.isTick = true ∧ b.maxRadius ≤ (BubbleOp.apply b op).radius)) := by
  cases op with
  | tick w hh =>
      show (Bubble.update w hh b).popped = true ↔
        b.popped = true ∨ (true = true ∧ b.maxRadius ≤ (Bubble.update w hh b).radius)
      simp only [Bubble.update, hg, if_true]
      split_ifs with hm
      · constructor
        · intro _
          exact Or.inr ⟨trivial, by linarith⟩
        · intro _
          trivial
      · constructor
        · intro hp
          exact Or.inl hp
        · rintro (hp | ⟨_, hr⟩)
          · exact hp
          · exact absurd (by linarith : b.maxRadius ≤ b.radius + 1 / 2) hm
  | move =>
      show b.popped = true ↔ b.popped = true ∨ (false = true ∧ _)
      simp
  | release r => exact absurd hop (by simp [BubbleOp.isRelease])

/-- Popping characterisation for a bubble that stays in the growing phase:
after any release-free sequence of operations, `popped` holds iff it held
initially or some prefix ending in a tick reached `maxRadius`. -/
lemma runOps_popped_iff (ops : List BubbleOp) (b : Bubble) (hg : b.growing = true)
    (hops : ∀ op ∈ ops, op.isRelease = false) :
    ((runOps b ops).popped = true ↔
      (b.popped = true ∨ ∃ k, k < ops.length ∧ (ops.getD k .move).isTick = true ∧
        b.maxRadius ≤ (runOps b (ops.take (k + 1))).radius)) := by
  induction ops generalizing b with
  | nil => simp [runOps]
  | cons op tl ih =>
      have hop : op.isRelease = false := hops op (List.mem_cons_self _ _)
      have hops_tl : ∀ o ∈ tl, o.isRelease = false :=
        fun o ho => hops o (List.mem_cons_of_mem _ ho)
      have hg1 : (BubbleOp.apply b op).growing = true := apply_growing_true b op hg hop
      have hrw : runOps b (op :: tl) = runOps (BubbleOp.apply b op) tl := rfl
      have hmax : (BubbleOp.apply b op).maxRadius = b.maxRadius := apply_maxRadius b op
      rw [hrw, ih (BubbleOp.apply b op) hg1 hops_tl, apply_popped_iff b op hg hop, hmax]
      have htake0 : runOps b ((op :: tl).take 1) = BubbleOp.apply b op := rfl
      constructor
      · rintro ((hp | ⟨ht, hr⟩) | ⟨j, hj, hjt, hjr⟩)
        · exact Or.inl hp
        · refine Or.inr ⟨0, by simp, ?_, ?_⟩
          · simpa using ht
          · rw [htake0]; exact hr
        · refine Or.inr ⟨j + 1, by simp; omega, by simpa using hjt, ?_⟩
          rw [show (op :: tl).take (j + 1 + 1) = op :: tl.take (j + 1) from rfl]
          exact hjr
      · rintro (hp | ⟨k, hk, hkt, hkr⟩)
        · exact Or.inl (Or.inl hp)
        · cases k with
          | zero =>
              refine Or.inl (Or.inr ⟨by simpa using hkt, ?_⟩)
              rw [htake0] at hkr
              exact hkr
          | succ j =>
              refine Or.inr ⟨j, ?_, by simpa using hkt, ?_⟩
              · simp at hk; omega
              · rw [show (op :: tl).take (j + 1 + 1) = op :: tl.take (j + 1) from rfl] at hkr
                exact hkr

/-- C3: for a freshly created (growing) bubble, after any sequence of
animate ticks and touch-move growth steps, the bubble is popped exactly
when some prefix of the sequence ending in a tick left the radius at or
above the maximum 150; and whenever it is popped, its radius is at or
above 150 — never below. -/
theorem growing_pops_iff_reached_max (x y rand : ℚ) (ops : List BubbleOp)
    (hops : ∀ op ∈ ops, op.isRelease = false) :
    ((runOps (mkBubble x y rand) ops).popped = true ↔
      ∃ k, k < ops.length ∧ (ops.getD k .move).isTick = true ∧
        (150 : ℚ) ≤ (runOps (mkBubble x y rand) (ops.take (k + 1))).radius) ∧
    ((runOps (mkBubble x y rand) ops).popped = true →
      (150 : ℚ) ≤ (runOps (mkBubble x y rand) ops).radius) := by
  have h1 := runOps_popped_iff ops (mkBubble x y rand) rfl hops
  constructor
  · rw [h1]
    constructor
    · rintro (hp | hex)
      · exact absurd hp (by simp [mkBubble])
      · exact hex
    · intro hex
      exact Or.inr hex
  · intro hp
    rw [h1] at hp
    rcases hp with hp | ⟨k, hk, _, hrad⟩
    · exact absurd hp (by simp [mkBubble])
    · have hdecomp : runOps (mkBubble x y rand) ops
          = runOps (runOps (mkBubble x y rand) (ops.take (k + 1))) (ops.drop (k + 1)) := by
        rw [← runOps_append, List.take_append_drop]
      rw [hdecomp]
      exact le_trans hrad (runOps_radius_le _ _)

/-- C3 witness: hypotheses discharged on the concrete release-free
sequence [move, tick]. -/
theorem growing_pops_iff_reached_max_witness :
    (((runOps (mkBubble 0 0 0) [BubbleOp.move, BubbleOp.tick 800 600]).popped = true ↔
      ∃ k, k < ([BubbleOp.move, BubbleOp.tick 800 600] : List BubbleOp).length ∧
        (([BubbleOp.move, BubbleOp.tick 800 600] : List BubbleOp).getD k .move).isTick = true ∧
        (150 : ℚ) ≤ (runOps (mkBubble 0 0 0)
          (([BubbleOp.move, BubbleOp.tick 800 600] : List BubbleOp).take (k + 1))).radius) ∧
    ((runOps (mkBubble 0 0 0) [BubbleOp.move, BubbleOp.tick 800 600]).popped = true →
      (150 : ℚ) ≤ (runOps (mkBubble 0 0 0) [BubbleOp.move, BubbleOp.tick 800 600]).radius)) :=
  growing_pops_iff_reached_max 0 0 0 [BubbleOp.move, BubbleOp.tick 800 600]
    (by
      intro op hop
      rcases List.mem_cons.mp hop with rfl | hop2
      · rfl
      · rcases List.mem_cons.mp hop2 with rfl | hop3
        · rfl
        · exact absurd hop3 (List.not_mem_nil _))

/-! ## Claim C9 -/

/-- C9: the hue invariant.  The initial hue is `rand * 360` with
`rand ∈ [0,1)`, hence in `[0, 360)`; each free tick adds 0.1 and wraps by
subtracting 360 exactly when the sum reaches 360, and no other operation
changes the hue, so `hue ∈ [0, 360)` holds after any sequence of
operations. -/
theorem hue_in_range (x y rand : ℚ) (h0 : 0 ≤ rand) (h1 : rand < 1)
    (ops : List BubbleOp) :
    0 ≤ (runOps (mkBubble x y rand) ops).hue ∧
    (runOps (mkBubble x y rand) ops).hue < 360 := by
  refine runOps_hue_mem ops (mkBubble x y rand) ?_ ?_
  · show 0 ≤ rand * 360
    nlinarith
  · show rand * 360 < 360
    nlinarith

/-- C9 witness at a concrete input: `rand = 1/2`, one tick and one move. -/
theorem hue_in_range_witness :
    0 ≤ (runOps (mkBubble 0 0 (1/2)) [BubbleOp.tick 800 600, BubbleOp.move]).hue ∧
    (runOps (mkBubble 0 0 (1/2)) [BubbleOp.tick 800 600, BubbleOp.move]).hue < 360 :=
  hue_in_range 0 0 (1/2) (by norm_num) (by norm_num) [BubbleOp.tick 800 600, BubbleOp.move]

/-! ## The touch hit-test -/

lemma hits_iff (x y : ℚ) (b : Bubble) :
    hits x y b ↔ 0 ≤ b.radius ∧ (x - b.x) ^ 2 + (y - b.y) ^ 2 ≤ b.radius ^ 2 := by
  rw [hits, Real.sqrt_le_iff]
  constructor
  · rintro ⟨h1, h2⟩
    exact ⟨by exact_mod_cast h1, by exact_mod_cast h2⟩
  · rintro ⟨h1, h2⟩
    exact ⟨by exact_mod_cast h1, by exact_mod_cast h2⟩

/-- The downward scan returns the largest in-range position whose bubble
the touch point hits: no position above it is hit. -/
lemma scanPop_some (w : World) (x y : ℚ) (n idx : ℕ)
    (h : scanPop w x y n = some idx) :
    idx < n ∧ hits x y (bubbleAt w idx) ∧
    ∀ j, idx < j → j < n → ¬ hits x y (bubbleAt w j) := by
  induction n with
  | zero => cases h
  | succ i ih =>
      rw [scanPop] at h
      split_ifs at h with hhit
      · obtain rfl : i = idx := by injection h
        exact ⟨Nat.lt_succ_self _, hhit, fun j hj1 hj2 => absurd hj1 (by omega)⟩
      · obtain ⟨h1, h2, h3⟩ := ih h
        refine ⟨by omega, h2, ?_⟩
        intro j hj1 hj2
        rcases Nat.lt_succ_iff_lt_or_eq.mp hj2 with hj | rfl
        · exact h3 j hj1 hj
        · exact hhit

lemma getD_set_self (l : List Bubble) (i : ℕ) (a d : Bubble) (h : i < l.length) :
    (l.set i a).getD i d = a := by
  rw [List.getD_eq_getElem?_getD, List.getElem?_set_self (by simpa using h)]
  rfl

lemma hitIndex_wFree : hitIndex? wFree 0 0 = some 0 := by
  have h2 : hitIndex? wFree 0 0
      = if hits 0 0 (bubbleAt wFree 0) then some 0 else none := rfl
  have hh : hits 0 0 (bubbleAt wFree 0) := by
    rw [hits_iff]
    norm_num [bubbleAt, heapGet, wFree, freeB, mkBubble]
  rw [h2, if_pos hh]

lemma hitIndex_wGrow : hitIndex? wGrow 0 0 = some 0 := by
  have h2 : hitIndex? wGrow 0 0
      = if hits 0 0 (bubbleAt wGrow 0) then some 0 else none := rfl
  have hh : hits 0 0 (bubbleAt wGrow 0) := by
    rw [hits_iff]
    norm_num [bubbleAt, heapGet, wGrow, mkBubble]
  rw [h2, if_pos hh]

/-! ## Claim C1 -/

/-- C1: whenever a bubble pops — by a touch-start hit or by the animate
tick — exactly three ripples are appended, all at the bubble's position
and hue at the moment of popping, with expand speed 3, fade speed 0.01
and delays 0, 15, 30, and the bubble is removed from the bubble list. -/
theorem pop_spawns_three_ripples (w : World) (x y rand : ℚ) (idx : ℕ)
    (hidx : hitIndex? w x y = some idx) (wq hq : ℚ) (s : SimState) :
    (∀ b : Bubble,
      (popRipples b).length = 3 ∧
      (∀ r ∈ popRipples b, r.x = b.x ∧ r.y = b.y ∧ r.hue = b.hue ∧
        r.expandSpeed = 3 ∧ r.fadeSpeed = 1 / 100) ∧
      (popRipples b).map Ripple.delay = [0, 15, 30]) ∧
    ((touchstart x y rand w).ripples = w.ripples ++ popRipples (bubbleAt w idx) ∧
     (touchstart x y rand w).bubbleIds = w.bubbleIds.eraseIdx idx ∧
     (touchstart x y rand w).heap = w.heap) ∧
    ((animateTick wq hq s).1.bubbles
        = (s.bubbles.map (Bubble.update wq hq)).filter (fun b => !b.popped) ∧
     (animateTick wq hq s).1.ripples
        = (rippleTick s.ripples).1 ++
          ((s.bubbles.map (Bubble.update wq hq)).reverse.filter
            (fun b => b.popped)).flatMap popRipples) := by
  refine ⟨?_, ?_, rfl, rfl⟩
  · intro b
    refine ⟨rfl, ?_, rfl⟩
    intro r hr
    rcases List.mem_cons.mp hr with rfl | hr
    · exact ⟨rfl, rfl, rfl, rfl, rfl⟩
    · rcases List.mem_cons.mp hr with rfl | hr
      · exact ⟨rfl, rfl, rfl, rfl, rfl⟩
      · rcases List.mem_cons.mp hr with rfl | hr
        · exact ⟨rfl, rfl, rfl, rfl, rfl⟩
        · exact absurd hr (List.not_mem_nil _)
  · refine ⟨?_, ?_, ?_⟩ <;> simp only [touchstart, hidx]

/-- C1 witness: in the one-free-bubble world, a touch at the origin hits
position 0 and the handler appends that bubble's three pop ripples. -/
theorem pop_spawns_three_ripples_witness :
    hitIndex? wFree 0 0 = some 0 ∧
    (touchstart 0 0 0 wFree).ripples = wFree.ripples ++ popRipples (bubbleAt wFree 0) :=
  ⟨hitIndex_wFree,
   ((pop_spawns_three_ripples wFree 0 0 0 0 hitIndex_wFree 800 600 ⟨[], []⟩).2.1).1⟩

/-! ## Claim C7 -/

/-- C7 counterexample: the hit-test loop (lines 191-204) does not exclude
the growing bubble.  In the world with a single still-growing bubble at
the origin, a touch at the origin pops it: the bubble is removed and
three ripples spawn, although the bubble was growing, contradicting the
claim that only free (non-growing) bubbles are candidates. -/
theorem hit_test_includes_growing_cex :
    (bubbleAt wGrow 0).growing = true ∧
    (touchstart 0 0 0 wGrow).bubbleIds = [] ∧
    (touchstart 0 0 0 wGrow).ripples.length = 3 := by
  refine ⟨rfl, ?_, ?_⟩ <;> simp only [touchstart, hitIndex_wGrow] <;> rfl

/-- C7 (amended): ALL bubbles in the array — the growing one included —
are candidates for the touch-start pop hit-test; the bubble popped is the
first one found scanning positions in reverse (last-created first) whose
distance from the touch point is at most its radius; and when a bubble is
popped by the hit-test, no new bubble is created for that gesture (the
heap of bubble objects and the growing reference are unchanged). -/
theorem touch_pop_reverse_scan (w : World) (x y rand : ℚ) :
    (∀ idx, hitIndex? w x y = some idx →
      idx < w.bubbleIds.length ∧ hits x y (bubbleAt w idx) ∧
      (∀ j, idx < j → j < w.bubbleIds.length → ¬ hits x y (bubbleAt w j)) ∧
      (touchstart x y rand w).bubbleIds = w.bubbleIds.eraseIdx idx ∧
      (touchstart x y rand w).heap = w.heap ∧
      (touchstart x y rand w).growing = w.growing) ∧
    (hitIndex? w x y = none → w.growing ≠ none → touchstart x y rand w = w) := by
  constructor
  · intro idx hidx
    obtain ⟨h1, h2, h3⟩ := scanPop_some w x y _ idx hidx
    refine ⟨h1, h2, h3, ?_, ?_, ?_⟩ <;> simp only [touchstart, hidx]
  · intro hnone hg
    simp only [touchstart, hnone]
    rcases hw : w.growing with _ | g
    · exact absurd hw hg
    · simp only [hw]

/-- C7 amended-claim witness: concrete hit in the one-free-bubble world;
the handler leaves the heap unchanged (no bubble created). -/
theorem touch_pop_reverse_scan_witness :
    hitIndex? wFree 0 0 = some 0 ∧ (touchstart 0 0 0 wFree).heap = wFree.heap :=
  ⟨hitIndex_wFree,
   ((touch_pop_reverse_scan wFree 0 0 0).1 0 hitIndex_wFree).2.2.2.2.1⟩

/-! ## Claim C10 -/

/-- C10: if a touch-start pops the currently growing bubble, the growing
reference is not cleared — it still names the removed bubble — so every
later touch-start creates no new bubble object and leaves the reference
alone, every touch-move still grows the removed bubble's record through
the reference, and only a touch-end clears the reference. -/
theorem dangling_growing_reference (w : World) (x y rand : ℚ) (g idx : ℕ)
    (hg : w.growing = some g) (hidx : hitIndex? w x y = some idx) :
    ((touchstart x y rand w).growing = some g ∧
     (touchstart x y rand w).bubbleIds = w.bubbleIds.eraseIdx idx) ∧
    (∀ (w2 : World) (x2 y2 r2 : ℚ), w2.growing.isSome = true →
      (touchstart x2 y2 r2 w2).heap = w2.heap ∧
      (touchstart x2 y2 r2 w2).growing = w2.growing) ∧
    (∀ w2 : World, w2.growing = some g → g < w2.heap.length →
      heapGet (touchmove w2) g =
        { heapGet w2 g with radius := (heapGet w2 g).radius + 1 / 2 }) ∧
    (∀ (w2 : World) (r2 : ℚ), (touchend r2 w2).growing = none) := by
  refine ⟨⟨?_, ?_⟩, ?_, ?_, ?_⟩
  · simp only [touchstart, hidx]
    exact hg
  · simp only [touchstart, hidx]
  · intro w2 x2 y2 r2 hsome
    rcases hidx2 : hitIndex? w2 x2 y2 with _ | idx2
    · rcases hw : w2.growing with _ | g2
      · rw [hw] at hsome
        cases hsome
      · constructor
        · simp only [touchstart, hidx2, hw]
        · simp only [touchstart, hidx2, hw]
    · constructor
      · simp only [touchstart, hidx2]
      · simp only [touchstart, hidx2]
  · intro w2 hg2 hlen
    simp only [touchmove, hg2]
    exact getD_set_self _ _ _ _ hlen
  · intro w2 r2
    rcases hw : w2.growing with _ | g2
    · simp only [touchend, hw]
    · simp only [touchend, hw]

/-- C10 witness: in the one-growing-bubble world, the touch at the origin
pops the growing bubble yet the reference survives, and a touch-move still
grows the removed bubble's record. -/
theorem dangling_growing_reference_witness :
    wGrow.growing = some 0 ∧ hitIndex? wGrow 0 0 = some 0 ∧
    (touchstart 0 0 0 wGrow).growing = some 0 ∧
    heapGet (touchmove wGrow) 0 =
      { heapGet wGrow 0 with radius := (heapGet wGrow 0).radius + 1 / 2 } := by
  have hthm := dangling_growing_reference wGrow 0 0 0 0 0 rfl hitIndex_wGrow
  exact ⟨rfl, hitIndex_wGrow, hthm.1.1,
    hthm.2.2.1 wGrow rfl (by norm_num [wGrow])⟩

/-! ## Claim C2 -/

lemma hypot_scale (x y c : ℝ) (hc : 0 ≤ c) : hypot (x * c) (y * c) = hypot x y * c := by
  unfold hypot
  rw [mul_pow, mul_pow, ← add_mul, Real.sqrt_mul (by positivity) (c ^ 2),
    Real.sqrt_sq hc]

lemma resolve_core (a b pA pB : BubbleC) (S m e : ℝ)
    (hSpos : 0 < S)
    (hS2 : S ^ 2 = (b.x - a.x) ^ 2 + (b.y - a.y) ^ 2)
    (hm : S < m) (he : 0 ≤ e)
    (hrv : (b.vx - a.vx) * ((b.x - a.x) / S) + (b.vy - a.vy) * ((b.y - a.y) / S) ≤ 0)
    (hpA : pA = { a with
      x := a.x - (b.x - a.x) / S * ((m - S) / 2),
      y := a.y - (b.y - a.y) / S * ((m - S) / 2),
      vx := a.vx - -(1 + e) *
        ((b.vx - a.vx) * ((b.x - a.x) / S) + (b.vy - a.vy) * ((b.y - a.y) / S)) / 2 *
        ((b.x - a.x) / S),
      vy := a.vy - -(1 + e) *
        ((b.vx - a.vx) * ((b.x - a.x) / S) + (b.vy - a.vy) * ((b.y - a.y) / S)) / 2 *
        ((b.y - a.y) / S) })
    (hpB : pB = { b with
      x := b.x + (b.x - a.x) / S * ((m - S) / 2),
      y := b.y + (b.y - a.y) / S * ((m - S) / 2),
      vx := b.vx + -(1 + e) *
        ((b.vx - a.vx) * ((b.x - a.x) / S) + (b.vy - a.vy) * ((b.y - a.y) / S)) / 2 *
        ((b.x - a.x) / S),
      vy := b.vy + -(1 + e) *
        ((b.vx - a.vx) * ((b.x - a.x) / S) + (b.vy - a.vy) * ((b.y - a.y) / S)) / 2 *
        ((b.y - a.y) / S) }) :
    hypot (pB.x - pA.x) (pB.y - pA.y) = m ∧
    normalRelVel pA pB
      = -(e * ((b.vx - a.vx) * ((b.x - a.x) / S) + (b.vy - a.vy) * ((b.y - a.y) / S))) ∧
    0 ≤ normalRelVel pA pB := by
  subst hpA hpB
  dsimp only
  have hS0 : S ≠ 0 := ne_of_gt hSpos
  have hm0 : 0 < m := lt_trans hSpos hm
  set U : ℝ := (b.x - a.x) / S with hU
  set V : ℝ := (b.y - a.y) / S with hV
  set R : ℝ := (b.vx - a.vx) * U + (b.vy - a.vy) * V with hR
  have hSU : b.x - a.x = S * U := by rw [hU]; field_simp
  have hSV : b.y - a.y = S * V := by rw [hV]; field_simp
  have huv : U ^ 2 + V ^ 2 = 1 := by
    rw [hU, hV]
    field_simp
    linarith [hS2]
  have hex : (b.x + U * ((m - S) / 2)) - (a.x - U * ((m - S) / 2)) = U * m := by
    calc (b.x + U * ((m - S) / 2)) - (a.x - U * ((m - S) / 2))
        = (b.x - a.x) + U * (m - S) := by ring
      _ = S * U + U * (m - S) := by rw [hSU]
      _ = U * m := by ring
  have hey : (b.y + V * ((m - S) / 2)) - (a.y - V * ((m - S) / 2)) = V * m := by
    calc (b.y + V * ((m - S) / 2)) - (a.y - V * ((m - S) / 2))
        = (b.y - a.y) + V * (m - S) := by ring
      _ = S * V + V * (m - S) := by rw [hSV]
      _ = V * m := by ring
  have hdist : hypot ((b.x + U * ((m - S) / 2)) - (a.x - U * ((m - S) / 2)))
      ((b.y + V * ((m - S) / 2)) - (a.y - V * ((m - S) / 2))) = m := by
    rw [hex, hey, hypot_scale _ _ _ hm0.le]
    have hh : hypot U V = 1 := by
      unfold hypot
      rw [huv, Real.sqrt_one]
    rw [hh, one_mul]
  have hnum : ((b.vx + -(1 + e) * R / 2 * U) - (a.vx - -(1 + e) * R / 2 * U)) *
        ((b.x + U * ((m - S) / 2)) - (a.x - U * ((m - S) / 2))) +
      ((b.vy + -(1 + e) * R / 2 * V) - (a.vy - -(1 + e) * R / 2 * V)) *
        ((b.y + V * ((m - S) / 2)) - (a.y - V * ((m - S) / 2)))
      = -(e * R) * m := by
    rw [hex, hey]
    calc ((b.vx + -(1 + e) * R / 2 * U) - (a.vx - -(1 + e) * R / 2 * U)) * (U * m) +
        ((b.vy + -(1 + e) * R / 2 * V) - (a.vy - -(1 + e) * R / 2 * V)) * (V * m)
        = m * R - (1 + e) * m * R * (U ^ 2 + V ^ 2) := by rw [hR]; ring
      _ = m * R - (1 + e) * m * R * 1 := by rw [huv]
      _ = -(e * R) * m := by ring
  have hrel : normalRelVel
      { x := a.x - U * ((m - S) / 2), y := a.y - V * ((m - S) / 2), radius := a.radius,
        vx := a.vx - -(1 + e) * R / 2 * U, vy := a.vy - -(1 + e) * R / 2 * V,
        growing := a.growing, popped := a.popped }
      { x := b.x + U * ((m - S) / 2), y := b.y + V * ((m - S) / 2), radius := b.radius,
        vx := b.vx + -(1 + e) * R / 2 * U, vy := b.vy + -(1 + e) * R / 2 * V,
        growing := b.growing, popped := b.popped } = -(e * R) := by
    rw [normalRelVel]
    dsimp only
    rw [hdist, hnum]
    field_simp
  refine ⟨hdist, hrel, ?_⟩
  rw [hrel]
  have h1 : 0 ≤ e * (-R) := mul_nonneg he (by rw [hR] at hrv ⊢; linarith)
  linarith

/-- C2: one pass of the collision resolver on a free, overlapping,
non-coincident, approaching pair leaves the centre distance exactly equal
to the sum of the radii, and the post-resolution relative normal velocity
equals the pre-resolution one negated and scaled by the restitution factor
0.99 — in particular it is no longer approaching. -/
theorem collision_pass_resolves (a b : BubbleC)
    (hga : a.growing = false) (hpa : a.popped = false)
    (hgb : b.growing = false) (hpb : b.popped = false)
    (hd : 0 < hypot (b.x - a.x) (b.y - a.y))
    (hov : hypot (b.x - a.x) (b.y - a.y) < a.radius + b.radius)
    (hrv : normalRelVel a b ≤ 0) :
    hypot ((resolvePair a b).2.x - (resolvePair a b).1.x)
          ((resolvePair a b).2.y - (resolvePair a b).1.y) = a.radius + b.radius ∧
    normalRelVel (resolvePair a b).1 (resolvePair a b).2
      = -((BUBBLE_RESTITUTION : ℝ) * normalRelVel a b) ∧
    0 ≤ normalRelVel (resolvePair a b).1 (resolvePair a b).2 := by
  have hS0 : hypot (b.x - a.x) (b.y - a.y) ≠ 0 := ne_of_gt hd
  have hS2 : hypot (b.x - a.x) (b.y - a.y) ^ 2 = (b.x - a.x) ^ 2 + (b.y - a.y) ^ 2 :=
    Real.sq_sqrt (by positivity)
  have hc1 : ¬ (a.growing || a.popped || b.growing || b.popped) = true := by
    rw [hga, hpa, hgb, hpb]
    simp
  have hc2 : ¬ (hypot (b.x - a.x) (b.y - a.y) = 0 ∨
      a.radius + b.radius ≤ hypot (b.x - a.x) (b.y - a.y)) := by
    push_neg
    exact ⟨hS0, hov⟩
  have hrv_eq : (b.vx - a.vx) * ((b.x - a.x) / hypot (b.x - a.x) (b.y - a.y)) +
      (b.vy - a.vy) * ((b.y - a.y) / hypot (b.x - a.x) (b.y - a.y))
      = normalRelVel a b := by
    rw [normalRelVel]
    field_simp
  have hc3 : ¬ (0 < (b.vx - a.vx) * ((b.x - a.x) / hypot (b.x - a.x) (b.y - a.y)) +
      (b.vy - a.vy) * ((b.y - a.y) / hypot (b.x - a.x) (b.y - a.y))) := by
    rw [hrv_eq]
    exact not_lt.mpr hrv
  have hp1 : (resolvePair a b).1 = { a with
      x := a.x - (b.x - a.x) / hypot (b.x - a.x) (b.y - a.y) *
        ((a.radius + b.radius - hypot (b.x - a.x) (b.y - a.y)) / 2),
      y := a.y - (b.y - a.y) / hypot (b.x - a.x) (b.y - a.y) *
        ((a.radius + b.radius - hypot (b.x - a.x) (b.y - a.y)) / 2),
      vx := a.vx - -(1 + (BUBBLE_RESTITUTION : ℝ)) *
        ((b.vx - a.vx) * ((b.x - a.x) / hypot (b.x - a.x) (b.y - a.y)) +
          (b.vy - a.vy) * ((b.y - a.y) / hypot (b.x - a.x) (b.y - a.y))) / 2 *
        ((b.x - a.x) / hypot (b.x - a.x) (b.y - a.y)),
      vy := a.vy - -(1 + (BUBBLE_RESTITUTION : ℝ)) *
        ((b.vx - a.vx) * ((b.x - a.x) / hypot (b.x - a.x) (b.y - a.y)) +
          (b.vy - a.vy) * ((b.y - a.y) / hypot (b.x - a.x) (b.y - a.y))) / 2 *
        ((b.y - a.y) / hypot (b.x - a.x) (b.y - a.y)) } := by
    unfold resolvePair
    rw [if_neg hc1]
    dsimp only
    rw [if_neg hc2, if_neg hc3]
  have hp2 : (resolvePair a b).2 = { b with
      x := b.x + (b.x - a.x) / hypot (b.x - a.x) (b.y - a.y) *
        ((a.radius + b.radius - hypot (b.x - a.x) (b.y - a.y)) / 2),
      y := b.y + (b.y - a.y) / hypot (b.x - a.x) (b.y - a.y) *
        ((a.radius + b.radius - hypot (b.x - a.x) (b.y - a.y)) / 2),
      vx := b.vx + -(1 + (BUBBLE_RESTITUTION : ℝ)) *
        ((b.vx - a.vx) * ((b.x - a.x) / hypot (b.x - a.x) (b.y - a.y)) +
          (b.vy - a.vy) * ((b.y - a.y) / hypot (b.x - a.x) (b.y - a.y))) / 2 *
        ((b.x - a.x) / hypot (b.x - a.x) (b.y - a.y)),
      vy := b.vy + -(1 + (BUBBLE_RESTITUTION : ℝ)) *
        ((b.vx - a.vx) * ((b.x - a.x) / hypot (b.x - a.x) (b.y - a.y)) +
          (b.vy - a.vy) * ((b.y - a.y) / hypot (b.x - a.x) (b.y - a.y))) / 2 *
        ((b.y - a.y) / hypot (b.x - a.x) (b.y - a.y)) } := by
    unfold resolvePair
    rw [if_neg hc1]
    dsimp only
    rw [if_neg hc2, if_neg hc3]
  have hcore := resolve_core a b (resolvePair a b).1 (resolvePair a b).2
    (hypot (b.x - a.x) (b.y - a.y)) (a.radius + b.radius) (BUBBLE_RESTITUTION : ℝ)
    hd hS2 hov (by norm_num [BUBBLE_RESTITUTION]) (by rw [hrv_eq]; exact hrv) hp1 hp2
  refine ⟨hcore.1, ?_, hcore.2.2⟩
  rw [hcore.2.1, hrv_eq]

/-- C2 witness: the concrete 3-4-5 pair `aC`, `bC` (distance 5, radii
summing to 6, closing head-on) satisfies every hypothesis, and the theorem
applies. -/
theorem collision_pass_resolves_witness :
    0 < hypot (bC.x - aC.x) (bC.y - aC.y) ∧
    hypot (bC.x - aC.x) (bC.y - aC.y) < aC.radius + bC.radius ∧
    normalRelVel aC bC ≤ 0 ∧
    (hypot ((resolvePair aC bC).2.x - (resolvePair aC bC).1.x)
           ((resolvePair aC bC).2.y - (resolvePair aC bC).1.y) = aC.radius + bC.radius ∧
     normalRelVel (resolvePair aC bC).1 (resolvePair aC bC).2
       = -((BUBBLE_RESTITUTION : ℝ) * normalRelVel aC bC) ∧
     0 ≤ normalRelVel (resolvePair aC bC).1 (resolvePair aC bC).2) := by
  have h5 : hypot (bC.x - aC.x) (bC.y - aC.y) = 5 := by
    show hypot ((3 : ℝ) - 0) ((4 : ℝ) - 0) = 5
    unfold hypot
    rw [show ((3 : ℝ) - 0) ^ 2 + ((4 : ℝ) - 0) ^ 2 = 5 ^ 2 by norm_num]
    exact Real.sqrt_sq (by norm_num)
  have hd : 0 < hypot (bC.x - aC.x) (bC.y - aC.y) := by
    rw [h5]
    norm_num
  have hov : hypot (bC.x - aC.x) (bC.y - aC.y) < aC.radius + bC.radius := by
    rw [h5]
    show (5 : ℝ) < 3 + 3
    norm_num
  have hrv : normalRelVel aC bC ≤ 0 := by
    rw [normalRelVel, h5]
    norm_num [aC, bC]
  exact ⟨hd, hov, hrv, collision_pass_resolves aC bC rfl rfl rfl rfl hd hov hrv⟩

/-! ## Claim C8 -/

lemma popRipples_mem_fields (bs : List Bubble) (r : Ripple)
    (hr : r ∈ bs.flatMap popRipples) :
    r.alpha = 1 ∧ r.fadeSpeed = 1 / 100 ∧ r.done = false := by
  rcases List.mem_flatMap.mp hr with ⟨b, _, hrb⟩
  rcases List.mem_cons.mp hrb with rfl | hrb
  · exact ⟨rfl, rfl, rfl⟩
  · rcases List.mem_cons.mp hrb with rfl | hrb
    · exact ⟨rfl, rfl, rfl⟩
    · rcases List.mem_cons.mp hrb with rfl | hrb
      · exact ⟨rfl, rfl, rfl⟩
      · exact absurd hrb (List.not_mem_nil _)

/-- C8 counterexample: the animate loop draws ripples before it updates
bubbles, so a delay-0 ripple spawned by a pop during tick t is NOT drawn
during tick t.  Concretely: a bubble half a growth step from the maximum
pops during the tick, spawning ripples with delays 0, 15, 30, yet the
list of ripples drawn that tick is empty; the delay-0 ripple is drawn on
the following tick instead. -/
theorem pop_ripple_not_drawn_same_tick_cex :
    (animateTick 800 600 sCex).2 = [] ∧
    (animateTick 800 600 sCex).1.bubbles = [] ∧
    ((animateTick 800 600 sCex).1.ripples.map Ripple.delay) = [0, 15, 30] ∧
    ((animateTick 800 600 (animateTick 800 600 sCex).1).2).length = 1 := by
  refine ⟨rfl, ?_, ?_, ?_⟩
  · norm_num [animateTick, bubbleTick, rippleTick, sCex, bigBubble, mkBubble,
      Bubble.update]
  · norm_num [animateTick, bubbleTick, rippleTick, sCex, bigBubble, mkBubble,
      Bubble.update, popRipples, mkRipple]
  · norm_num [animateTick, bubbleTick, rippleTick, sCex, bigBubble, mkBubble,
      Bubble.update, popRipples, mkRipple, Ripple.update, Ripple.visible]

/-- C8 (amended): within every animation tick, all ripples are updated,
pruned and drawn before any bubble is updated or pruned; the ripples
drawn during a tick are exactly updates of ripples already present at the
start of the tick, so a ripple spawned by a pop during tick t — even one
whose delay is 0 — is not drawn during tick t; it is drawn during tick
t + 1. -/
theorem ripples_tick_before_bubbles (wq hq : ℚ) (s : SimState) :
    (animateTick wq hq s).2 = (rippleTick s.ripples).2 ∧
    (animateTick wq hq s).1.ripples
      = (rippleTick s.ripples).1 ++ (bubbleTick wq hq s.bubbles).2 ∧
    (∀ r ∈ (animateTick wq hq s).2, ∃ r0 ∈ s.ripples, r = Ripple.update r0) ∧
    (∀ r ∈ (bubbleTick wq hq s.bubbles).2, r.delay = 0 →
      Ripple.update r ∈ (animateTick wq hq (animateTick wq hq s).1).2) := by
  refine ⟨rfl, rfl, ?_, ?_⟩
  · intro r hr
    have hr1 : r ∈ (s.ripples.map Ripple.update).filter (fun r => !r.done) :=
      List.mem_of_mem_filter hr
    have hr2 : r ∈ s.ripples.map Ripple.update := List.mem_of_mem_filter hr1
    rcases List.mem_map.mp hr2 with ⟨r0, hr0, rfl⟩
    exact ⟨r0, hr0, rfl⟩
  · intro r hr hdelay
    obtain ⟨ha, hf, hd⟩ := popRipples_mem_fields _ r hr
    have hnot : ¬ 0 < r.delay := by omega
    have hdel : (Ripple.update r).delay = 0 := by
      unfold Ripple.update
      rw [if_neg hnot]
      exact hdelay
    have hdone : (Ripple.update r).done = false := by
      unfold Ripple.update
      rw [if_neg hnot]
      show (if r.alpha - r.fadeSpeed ≤ 0 then true else r.done) = false
      rw [ha, hf, hd]
      norm_num
    have hvis : Ripple.visible (Ripple.update r) = true := by
      unfold Ripple.visible
      rw [hdel]
      rfl
    have hmem1 : r ∈ (animateTick wq hq s).1.ripples :=
      List.mem_append_right _ hr
    have hmem2 : Ripple.update r ∈ ((animateTick wq hq s).1.ripples).map Ripple.update :=
      List.mem_map_of_mem _ hmem1
    have hmem3 : Ripple.update r ∈
        (((animateTick wq hq s).1.ripples).map Ripple.update).filter (fun r => !r.done) :=
      List.mem_filter.mpr ⟨hmem2, by rw [hdone]; rfl⟩
    exact List.mem_filter.mpr ⟨hmem3, hvis⟩

/-- C8 amended-claim witness: the delay-0 pop ripple spawned in the
auto-pop state is drawn on the following tick. -/
theorem ripples_tick_before_bubbles_witness :
    mkRipple 0 0 3 (1 / 100) 0 0 ∈ (bubbleTick 800 600 sCex.bubbles).2 ∧
    Ripple.update (mkRipple 0 0 3 (1 / 100) 0 0)
      ∈ (animateTick 800 600 (animateTick 800 600 sCex).1).2 := by
  have hmem : mkRipple 0 0 3 (1 / 100) 0 0 ∈ (bubbleTick 800 600 sCex.bubbles).2 := by
    norm_num [bubbleTick, sCex, bigBubble, mkBubble, Bubble.update, popRipples,
      mkRipple]
  exact ⟨hmem, (ripples_tick_before_bubbles 800 600 sCex).2.2.2 _ hmem rfl⟩
